import Mathlib

/-!
Verification of the SLMP 4E-frame client library (slmp-rs) against its
specification.  The definitions below are a shallow embedding of the Rust
sources: machine integers become `Nat` with explicit `% 2^w` where overflow
matters, fallible or panicking code returns `Option`/`Except`, and byte
buffers are `List Nat`.
-/

set_option maxRecDepth 100000

deriving instance DecidableEq for Except

namespace Slmp

/-! ## Byte-level helpers (src/lib.rs and integer primitives) -/

/-- Little-endian bytes of a `u16` value (`u16::to_le_bytes`). -/
def le16 (v : Nat) : List Nat := [v % 256, v / 256 % 256]

/-- Little-endian bytes of a `u32` value (`u32::to_le_bytes`). -/
def le32 (v : Nat) : List Nat :=
  [v % 256, v / 256 % 256, v / 65536 % 256, v / 16777216 % 256]

/-- Little-endian bytes of a `u64` value (`u64::to_le_bytes`). -/
def le64 (v : Nat) : List Nat :=
  [v % 256, v / 256 % 256, v / 65536 % 256, v / 16777216 % 256,
   v / 4294967296 % 256, v / 1099511627776 % 256,
   v / 281474976710656 % 256, v / 72057594037927936 % 256]

/-- `u16::from_le_bytes([buf[0], buf[1]])`; `none` models the Rust index
panic when the slice is too short. -/
def read16 (bytes : List Nat) : Option Nat := do
  let b0 ← bytes[0]?
  let b1 ← bytes[1]?
  pure (b0 + 256 * b1)

/-- `u32::from_le_bytes` over the first four bytes, `none` on a short slice. -/
def read32 (bytes : List Nat) : Option Nat := do
  let b0 ← bytes[0]?
  let b1 ← bytes[1]?
  let b2 ← bytes[2]?
  let b3 ← bytes[3]?
  pure (b0 + 256 * b1 + 65536 * b2 + 16777216 * b3)

/-- `u64::from_le_bytes` over the first eight bytes, `none` on a short slice. -/
def read64 (bytes : List Nat) : Option Nat := do
  let b0 ← bytes[0]?
  let b1 ← bytes[1]?
  let b2 ← bytes[2]?
  let b3 ← bytes[3]?
  let b4 ← bytes[4]?
  let b5 ← bytes[5]?
  let b6 ← bytes[6]?
  let b7 ← bytes[7]?
  pure (b0 + 256 * b1 + 65536 * b2 + 16777216 * b3 + 4294967296 * b4 +
        1099511627776 * b5 + 281474976710656 * b6 + 72057594037927936 * b7)

/-- `u8_to_bits` from src/lib.rs: the eight bits of a byte, LSB first. -/
def u8_to_bits (n : Nat) : List Bool :=
  [n &&& 0x01 != 0, n &&& 0x02 != 0, n &&& 0x04 != 0, n &&& 0x08 != 0,
   n &&& 0x10 != 0, n &&& 0x20 != 0, n &&& 0x40 != 0, n &&& 0x80 != 0]

/-- `bits_to_u8` from src/lib.rs: recombine eight bits, LSB first. -/
def bits_to_u8 (bits : List Bool) : Nat :=
  ((bits.getD 0 false).toNat <<< 0) |||
  ((bits.getD 1 false).toNat <<< 1) |||
  ((bits.getD 2 false).toNat <<< 2) |||
  ((bits.getD 3 false).toNat <<< 3) |||
  ((bits.getD 4 false).toNat <<< 4) |||
  ((bits.getD 5 false).toNat <<< 5) |||
  ((bits.getD 6 false).toNat <<< 6) |||
  ((bits.getD 7 false).toNat <<< 7)

/-- `u16_to_bits` from src/lib.rs: `n.to_le_bytes()` then bits of the low
byte followed by bits of the high byte. -/
def u16_to_bits (n : Nat) : List Bool :=
  u8_to_bits (n % 256) ++ u8_to_bits (n / 256 % 256)

/-- `bits_to_u16` from src/lib.rs.  Note the source recombines with
`u16::from_be_bytes([low_byte, high_byte])`, which places the byte built
from bits 0..7 in the HIGH half of the result. -/
def bits_to_u16 (bits : List Bool) : Nat :=
  let low_bits := bits.take 8
  let high_bits := (bits.drop 8).take 8
  let high_byte := bits_to_u8 high_bits
  let low_byte := bits_to_u8 low_bits
  low_byte * 256 + high_byte

/-- `div_ceil` from src/lib.rs. -/
def div_ceil (a b : Nat) : Nat := (a + b - 1) / b

/-! ## CPU variants and devices (src/device.rs) -/

inductive CPU where
  | Q
  | R
  | L
deriving DecidableEq

inductive AccessType where
  | Bit
  | Word
deriving DecidableEq

/-- Device size classes.  src/device.rs declares `Bit, SingleWord,
DoubleWord, QuadrupleWord`; the data model in src/data/mod.rs and
src/monitor.rs additionally uses a `MultiWord(n)` class, which we include. -/
inductive DeviceSize where
  | bit
  | singleWord
  | doubleWord
  | quadrupleWord
  | multiWord (n : Nat)
deriving DecidableEq

inductive DeviceType where
  | X | Y | M | L | F | V | B | D | W | S | Z | R
  | TS | TC | TN | SS | SC | SN | CS | CC | CN
  | SB | SD | SM | SW | DX | DY | ZR
deriving DecidableEq

/-- `DeviceType::to_code` from src/device.rs. -/
def DeviceType.to_code : DeviceType → Nat
  | .X => 0x9c | .Y => 0x9d | .M => 0x90 | .L => 0x92 | .F => 0x93
  | .V => 0x94 | .B => 0xa0 | .D => 0xa8 | .W => 0xb4 | .S => 0x98
  | .Z => 0xcc | .R => 0xaf | .TS => 0xc1 | .TC => 0xc0 | .TN => 0xc2
  | .SS => 0xc7 | .SC => 0xc6 | .SN => 0xc8 | .CS => 0xc4 | .CC => 0xc3
  | .CN => 0xc5 | .SB => 0xa1 | .SD => 0xa9 | .SM => 0x91 | .SW => 0xb5
  | .DX => 0xa2 | .DY => 0xa3 | .ZR => 0xb0

structure Device where
  device_type : DeviceType
  address : Nat
deriving DecidableEq

/-- `Device::serialize` from src/device.rs: little-endian address bytes then
the device-type code, 4 bytes for Q/L and 6 bytes for R. -/
def Device.serialize (d : Device) (cpu : CPU) : List Nat :=
  let a := d.address
  match cpu with
  | .Q | .L => [a % 256, a / 256 % 256, a / 65536 % 256, d.device_type.to_code]
  | .R => [a % 256, a / 256 % 256, a / 65536 % 256, 0x00, d.device_type.to_code, 0x00]

/-- `Device::addr_code_len` from src/device.rs. -/
def Device.addr_code_len (cpu : CPU) : Nat :=
  match cpu with
  | .Q | .L => 4
  | .R => 6

/-! ## Data types (src/data/mod.rs) -/

/-- `DataType` from src/data/mod.rs.  The Rust enum carries explicit
discriminants (`Bool = 1, ..., String(u8) = 6, U32 = 7, ...`); the derived
`Ord` compares discriminants first and then the `String` payload, which we
reproduce through `dtDisc`/`dtKey` below.  Constructor names are lower-cased
because `Bool` and `String` clash with core Lean types. -/
inductive DataType where
  | bool
  | bitArray16
  | u16
  | i16
  | u32
  | i32
  | f32
  | f64
  | string (n : Nat)
deriving DecidableEq

/-- The Rust discriminant of each `DataType` variant. -/
def DataType.dtDisc : DataType → Nat
  | .bool => 1
  | .bitArray16 => 2
  | .u16 => 3
  | .i16 => 4
  | .f64 => 5
  | .string _ => 6
  | .u32 => 7
  | .i32 => 8
  | .f32 => 9

/-- The payload compared by the derived `Ord` after the discriminant:
only `String(n)` carries one. -/
def DataType.dtSub : DataType → Nat
  | .string n => n
  | _ => 0

/-- The total sort key realising Rust's derived `Ord` on `DataType`:
discriminant first, then the `String` device-size payload. -/
def DataType.dtKey (d : DataType) : Nat × Nat := (d.dtDisc, d.dtSub)

/-- `DataType::byte_size` from src/data/mod.rs. -/
def DataType.byte_size : DataType → Nat
  | .bool => 1
  | .bitArray16 | .u16 | .i16 => 2
  | .u32 | .i32 | .f32 => 4
  | .f64 => 8
  | .string n => n * 2

/-- `DataType::device_size` from src/data/mod.rs. -/
def DataType.device_size : DataType → DeviceSize
  | .bool => .bit
  | .bitArray16 | .u16 | .i16 => .singleWord
  | .u32 | .i32 | .f32 => .doubleWord
  | .f64 => .multiWord 4
  | .string n => .multiWord n

/-! ## Shift-JIS strings (src/data/string.rs) -/

def PLCSTRING_MAX_BYTES : Nat := 64

def PLCSTRING_MAX_DEVICE_SIZE : Nat := PLCSTRING_MAX_BYTES / 2

/-- `bytes.iter().position(|&b| b == 0x00).unwrap_or(bytes.len())`. -/
def nulPos (bytes : List Nat) : Nat := bytes.findIdx (fun b => b == 0)

/-- `PLCString`: a Shift-JIS string stored as a fixed 64-byte buffer. -/
structure PLCString where
  data : List Nat
  effective_len : Nat
  device_size : Nat
deriving DecidableEq

/-- `PLCString::from_shift_jis_bytes` from src/data/string.rs.  `none`
models the Rust panic of `data[..effective_len]` when `effective_len`
exceeds the 64-byte buffer. -/
def PLCString.from_shift_jis_bytes (bytes : List Nat) (device_size : Nat) :
    Option PLCString :=
  let nul_pos := nulPos bytes
  let effective_len := min nul_pos (device_size * 2)
  let ds := min device_size PLCSTRING_MAX_DEVICE_SIZE
  if effective_len ≤ PLCSTRING_MAX_BYTES then
    some { data := bytes.take effective_len ++
                   List.replicate (PLCSTRING_MAX_BYTES - effective_len) 0,
           effective_len := effective_len,
           device_size := ds }
  else
    none

/-- `PLCString::as_bytes` from src/data/string.rs. -/
def PLCString.as_bytes (s : PLCString) : List Nat :=
  s.data.take (s.device_size * 2)

/-- `impl From<(&str, u8)> for PLCString` from src/data/string.rs.  The
external `SHIFT_JIS.encode` call is abstracted away: the function receives
the encoder's output bytes and its `had_errors` flag.  The source binds the
flag to `_` and never inspects it. -/
def PLCString.fromEncoded (shift_jis_bytes : List Nat) (had_errors : Bool)
    (device_size : Nat) : Option PLCString :=
  PLCString.from_shift_jis_bytes shift_jis_bytes device_size

/-- The validation half of `impl Deserialize for PLCString`
(src/data/string.rs, lines 125-148), again abstracted over the encoder's
output bytes and `had_errors` flag. -/
def PLCString.deserialize_checked (device_size : Nat)
    (shift_jis_bytes : List Nat) (had_errors : Bool) :
    Except String (Option PLCString) :=
  if ¬ (1 ≤ device_size ∧ device_size ≤ PLCSTRING_MAX_DEVICE_SIZE) then
    .error "device_size must be between 1 and 32"
  else if had_errors then
    .error "Contains characters not representable in Shift-JIS"
  else if device_size * 2 < shift_jis_bytes.length then
    .error "Device size is too small to store Shift-JIS string"
  else
    .ok (PLCString.from_shift_jis_bytes shift_jis_bytes device_size)

/-- Well-formedness of a `PLCString` as produced by its constructors:
a 64-byte buffer whose effective prefix is NUL-free, padded with NULs,
with a clamped device size. -/
def PLCString.WF (s : PLCString) : Prop :=
  s.data.length = PLCSTRING_MAX_BYTES ∧
  s.device_size ≤ PLCSTRING_MAX_DEVICE_SIZE ∧
  s.effective_len ≤ s.device_size * 2 ∧
  (∀ i, i < s.effective_len → s.data.getD i 0 ≠ 0) ∧
  (∀ i, s.effective_len ≤ i → s.data.getD i 0 = 0)

/-! ## Typed data (src/data/mod.rs) -/

/-- `TypedData` from src/data/mod.rs.  Numeric payloads are modelled as
their little-endian bit patterns (`Nat`), which identifies floats with
their IEEE-754 representations, exactly the equivalence the specification
states for the round-trip law. -/
inductive TypedData where
  | bool (b : Bool)
  | bitArray16 (bits : List Bool)
  | u16 (v : Nat)
  | i16 (v : Nat)
  | u32 (v : Nat)
  | i32 (v : Nat)
  | f32 (bits : Nat)
  | f64 (bits : Nat)
  | str (s : PLCString)
deriving DecidableEq

/-- `TypedData::get_type` from src/data/mod.rs. -/
def TypedData.get_type : TypedData → DataType
  | .bool _ => .bool
  | .bitArray16 _ => .bitArray16
  | .u16 _ => .u16
  | .i16 _ => .i16
  | .u32 _ => .u32
  | .i32 _ => .i32
  | .f32 _ => .f32
  | .f64 _ => .f64
  | .str s => .string s.device_size

/-- `TypedData::to_bytes` from src/data/mod.rs: raw little-endian value
bytes (booleans as `[1,0]`/`[0,0]`, bit arrays through `bits_to_u16`,
strings through `as_bytes`). -/
def TypedData.to_bytes : TypedData → List Nat
  | .bool true => [1, 0]
  | .bool false => [0, 0]
  | .bitArray16 bits => le16 (bits_to_u16 bits)
  | .u16 v => le16 v
  | .i16 v => le16 v
  | .u32 v => le32 v
  | .i32 v => le32 v
  | .f32 v => le32 v
  | .f64 v => le64 v
  | .str s => s.as_bytes

/-- `impl From<(&[u8], DataType)> for TypedData` from src/data/mod.rs.
`none` models the Rust index panics on short slices. -/
def TypedData.fromBytes (bytes : List Nat) : DataType → Option TypedData
  | .bool => do
      let v ← read16 bytes
      pure (.bool ((v &&& 0x01) == 1))
  | .bitArray16 => do
      let v ← read16 bytes
      pure (.bitArray16 (u16_to_bits v))
  | .u16 => do
      let v ← read16 bytes
      pure (.u16 v)
  | .i16 => do
      let v ← read16 bytes
      pure (.i16 v)
  | .u32 => do
      let v ← read32 bytes
      pure (.u32 v)
  | .i32 => do
      let v ← read32 bytes
      pure (.i32 v)
  | .f32 => do
      let v ← read32 bytes
      pure (.f32 v)
  | .f64 => do
      let v ← read64 bytes
      pure (.f64 v)
  | .string n => do
      let s ← PLCString.from_shift_jis_bytes bytes n
      pure (.str s)

/-- Well-formed `TypedData`: numeric payloads within their machine width,
bit arrays of sixteen bits, strings well-formed. -/
def TypedData.WF : TypedData → Prop
  | .bool _ => True
  | .bitArray16 bits => bits.length = 16
  | .u16 v => v < 65536
  | .i16 v => v < 65536
  | .u32 v => v < 4294967296
  | .i32 v => v < 4294967296
  | .f32 v => v < 4294967296
  | .f64 v => v < 18446744073709551616
  | .str s => s.WF

/-- `TypedDevice` from src/device.rs. -/
structure TypedDevice where
  device : Device
  data_type : DataType
deriving DecidableEq

/-! ## Connection properties and the 4E header (src/lib.rs) -/

/-- `SLMP4EConnectionProps` from src/lib.rs (the `ip`/`port` endpoint
fields play no role in framing and are omitted; the `u16`/`u8` fields are
`Nat` bit patterns). -/
structure SLMP4EConnectionProps where
  cpu : CPU
  serial_id : Nat
  network_id : Nat
  pc_id : Nat
  io_id : Nat
  area_id : Nat
  cpu_timer : Nat
deriving DecidableEq

/-- `SLMP4EConnectionProps::generate_header` from src/lib.rs: the 13-byte
fixed prefix (request code, serial, blank, network, pc, io, area, DataLen)
followed by the 2-byte CpuTimer. -/
def SLMP4EConnectionProps.generate_header (p : SLMP4EConnectionProps)
    (command_len : Nat) : List Nat :=
  [0x54, 0x00] ++ le16 p.serial_id ++ [0x00, 0x00] ++
  [p.network_id, p.pc_id] ++ le16 p.io_id ++ [p.area_id] ++
  le16 command_len ++ le16 p.cpu_timer

/-! ## Response validation (src/lib.rs, `SLMPClient::validate_response`) -/

/-- The distinct error cases of `validate_response`, mirroring the
distinct `std::io::Error` messages of the source.  A protocol error
carries the symbolic end-code name together with the code itself. -/
inductive SLMPError where
  | invalidLength
  | invalidFrame
  | protocol (name : String) (code : Nat)
  | invalidResponseCode
  | invalidSerialId
  | invalidBlankCode
  | invalidNetworkId
  | invalidPcId
  | invalidIoId
  | invalidAreaId
deriving DecidableEq

/-- The EndCode-to-name table of `validate_response` (src/lib.rs). -/
def endCodeName (error : Nat) : String :=
  if error = 0xC059 then "WrongCommand"
  else if error = 0xC05C then "WrongFormat"
  else if error = 0xC061 then "WrongLength"
  else if error = 0xCEE0 then "Busy"
  else if error = 0xCEE1 then "ExceedReqLength"
  else if error = 0xCEE2 then "ExceedRespLength"
  else if error = 0xCF10 then "ServerNotFound"
  else if error = 0xCF20 then "WrongConfigItem"
  else if error = 0xCF30 then "PrmIDNotFound"
  else if error = 0xCF31 then "NotStartExclusiveWrite"
  else if error = 0xCF70 then "RelayFailure"
  else if error = 0xCF71 then "TimeoutError"
  else "Unknown Error"

/-- The checks of `SLMPClient::validate_response` (src/lib.rs) from the
EndCode test onward, given the decoded EndCode; at this point the buffer
is known to reach byte 14, so the remaining reads cannot panic and are
modelled totally. -/
def validate_end (p : SLMP4EConnectionProps) (data : List Nat) (code : Nat) :
    Except SLMPError Unit :=
  if code ≠ 0 then .error (.protocol (endCodeName code) code)
  else if data.take 2 ≠ [0xD4, 0x00] then .error .invalidResponseCode
  else if (data.drop 2).take 2 ≠ le16 p.serial_id then .error .invalidSerialId
  else if (data.drop 4).take 2 ≠ [0x00, 0x00] then .error .invalidBlankCode
  else if data.getD 6 0 ≠ p.network_id then .error .invalidNetworkId
  else if data.getD 7 0 ≠ p.pc_id then .error .invalidPcId
  else if (data.drop 8).take 2 ≠ le16 p.io_id then .error .invalidIoId
  else if data.getD 10 0 ≠ p.area_id then .error .invalidAreaId
  else .ok ()

/-- `SLMPClient::validate_response` from src/lib.rs.  The outer `Option`
models Rust panics: after the `len ≥ 13` guard every read below index 13 is
in bounds and is modelled totally with `getD`/`take`/`drop`, but the
EndCode bytes at indices 13 and 14 are read with only that guard, so they
are modelled with `getElem?`; `none` is the out-of-bounds panic. -/
def validate_response (p : SLMP4EConnectionProps) (data : List Nat) :
    Option (Except SLMPError Unit) :=
  if data.length < 13 then some (.error .invalidLength)
  else if data.getD 11 0 + 256 * data.getD 12 0 ≠ data.length - 13 then
    some (.error .invalidFrame)
  else do
    let b13 ← data[13]?
    let b14 ← data[14]?
    some (validate_end p data (b13 + 256 * b14))

/-- The response half of `SLMPClient::request_response` (src/lib.rs):
validate the received buffer, then return the slice starting at byte 15
(`RECVFRAME_PREFIX_FIXED_LEN`). -/
def response_body (p : SLMP4EConnectionProps) (data : List Nat) :
    Option (Except SLMPError (List Nat)) :=
  match validate_response p data with
  | none => none
  | some (.error e) => some (.error e)
  | some (.ok ()) => some (.ok (data.drop 15))

/-! ## MonitorList (src/monitor.rs) -/

/-- Non-strict lexicographic order on `Nat × Nat` sort keys. -/
def keyLe (a b : Nat × Nat) : Prop := a.1 < b.1 ∨ (a.1 = b.1 ∧ a.2 ≤ b.2)

/-- Strict lexicographic order on `Nat × Nat` sort keys. -/
def keyLt (a b : Nat × Nat) : Prop := a.1 < b.1 ∨ (a.1 = b.1 ∧ a.2 < b.2)

instance : DecidableRel keyLe := fun a b =>
  inferInstanceAs (Decidable (a.1 < b.1 ∨ (a.1 = b.1 ∧ a.2 ≤ b.2)))

instance : DecidableRel keyLt := fun a b =>
  inferInstanceAs (Decidable (a.1 < b.1 ∨ (a.1 = b.1 ∧ a.2 < b.2)))

/-- The key of `sort_by_key(|p| p.1.device.address)` in
`MonitorList::from` (src/monitor.rs). -/
def addrLe (p q : Nat × TypedDevice) : Prop :=
  p.2.device.address ≤ q.2.device.address

/-- The key of `sort_by_key(|p| p.1.data_type)` in `MonitorList::from`
(src/monitor.rs): Rust's derived `Ord` on `DataType`. -/
def dtLe (p q : Nat × TypedDevice) : Prop :=
  keyLe p.2.data_type.dtKey q.2.data_type.dtKey

instance : DecidableRel addrLe := fun _ _ => Nat.decLe _ _

instance : DecidableRel dtLe := fun p q =>
  inferInstanceAs (Decidable (keyLe p.2.data_type.dtKey q.2.data_type.dtKey))

instance : IsTotal (Nat × TypedDevice) addrLe :=
  ⟨fun p q => Nat.le_total p.2.device.address q.2.device.address⟩

instance : IsTrans (Nat × TypedDevice) addrLe :=
  ⟨fun _ _ _ h h' => Nat.le_trans h h'⟩

instance : IsTotal (Nat × TypedDevice) dtLe := by
  constructor
  intro p q
  unfold dtLe keyLe
  omega

instance : IsTrans (Nat × TypedDevice) dtLe := by
  constructor
  intro p q r h h'
  unfold dtLe keyLe at *
  omega

/-- Bool test for `matches!(_, DeviceSize::SingleWord | DeviceSize::Bit)`. -/
def isSingleOrBit (d : DataType) : Bool :=
  match d.device_size with
  | .singleWord | .bit => true
  | _ => false

/-- Bool test for `matches!(_, DeviceSize::DoubleWord)`. -/
def isDoubleWord (d : DataType) : Bool :=
  match d.device_size with
  | .doubleWord => true
  | _ => false

/-- Bool test for `matches!(_, DeviceSize::MultiWord(_))`. -/
def isMultiWord (d : DataType) : Bool :=
  match d.device_size with
  | .multiWord _ => true
  | _ => false

/-- The `n` of `DeviceSize::MultiWord(n)`, 0 otherwise. -/
def multiWordSize (d : DataType) : Nat :=
  match d.device_size with
  | .multiWord n => n
  | _ => 0

/-- `MonitorList` from src/monitor.rs.  The `u8` counters are `Nat` values
below 256. -/
structure MonitorList where
  sorted_devices : List (Nat × TypedDevice)
  single_word_access_points : Nat
  double_word_access_points : Nat
  multi_word_access_points : Nat
  single_word_access_points_for_multi_word_communication : Nat
deriving DecidableEq

/-- `impl From<&[TypedDevice]> for MonitorList` (src/monitor.rs): enumerate
the input, stably sort by address and then by `DataType` (Rust's `sort_by_key`
is stable, modelled by `List.insertionSort`), and derive the `u8` access-point
counters (`as u8` casts and `u8` additions wrap modulo 256). -/
def MonitorList.ofDevices (value : List TypedDevice) : MonitorList :=
  let sorted_devices := List.insertionSort dtLe (List.insertionSort addrLe value.enum)
  let multi_word_devices := sorted_devices.filter (fun x => isMultiWord x.2.data_type)
  let multi_word_access_points := multi_word_devices.length % 256
  let swmw := multi_word_devices.foldl
    (fun a b => (a + multiWordSize b.2.data_type) % 256) 0
  let single_word_access_points :=
    ((sorted_devices.countP (fun x => isSingleOrBit x.2.data_type)) % 256 + swmw) % 256
  let double_word_access_points :=
    (sorted_devices.countP (fun x => isDoubleWord x.2.data_type)) % 256
  { sorted_devices := sorted_devices,
    single_word_access_points := single_word_access_points,
    double_word_access_points := double_word_access_points,
    multi_word_access_points := multi_word_access_points,
    single_word_access_points_for_multi_word_communication := swmw }

/-- The order actually realised by `MonitorList::from`: primarily the full
derived `DataType` order (discriminant, then the `String` size payload),
secondarily the device address. -/
def sortedOrder (p q : Nat × TypedDevice) : Prop :=
  p.2.data_type.dtDisc < q.2.data_type.dtDisc ∨
  (p.2.data_type.dtDisc = q.2.data_type.dtDisc ∧
    p.2.data_type.dtSub < q.2.data_type.dtSub) ∨
  (p.2.data_type.dtDisc = q.2.data_type.dtDisc ∧
    p.2.data_type.dtSub = q.2.data_type.dtSub ∧
    p.2.device.address ≤ q.2.device.address)

/-- The order claimed by the specification sentence: primarily the
`DataType` ordinal (discriminant only), secondarily the device address. -/
def claimOrder (p q : Nat × TypedDevice) : Prop :=
  p.2.data_type.dtDisc < q.2.data_type.dtDisc ∨
  (p.2.data_type.dtDisc = q.2.data_type.dtDisc ∧
    p.2.device.address ≤ q.2.device.address)

instance : DecidableRel sortedOrder := fun p q =>
  inferInstanceAs (Decidable (_ ∨ _ ∨ _))

instance : DecidableRel claimOrder := fun p q =>
  inferInstanceAs (Decidable (_ ∨ _))

/-- The sum of `n` over the `MultiWord(n)` entries of a device list. -/
def multiSum (l : List TypedDevice) : Nat :=
  ((l.filter (fun d => isMultiWord d.data_type)).map
    (fun d => multiWordSize d.data_type)).sum

/-! ## Command builders (src/commands/device_access) -/

/-- The `0x0000`/`0x0002` word subcommand selection used by the read
builders (src/commands/device_access/read). -/
def wordSubcommand (cpu : CPU) : List Nat :=
  match cpu with
  | .Q | .L => [0x00, 0x00]
  | .R => [0x02, 0x00]

/-- Bit/word subcommand selection of the bulk-write builder
(src/commands/device_access/write/bulk.rs). -/
def bulkWriteSubcommand (cpu : CPU) (access_type : AccessType) : List Nat :=
  match access_type, cpu with
  | .Bit, .Q | .Bit, .L => [0x01, 0x00]
  | .Bit, .R => [0x03, 0x00]
  | .Word, .Q | .Word, .L => [0x00, 0x00]
  | .Word, .R => [0x02, 0x00]

/-- `matches!(x, TypedData::Bool(_))` as a Bool. -/
def TypedData.isBool : TypedData → Bool
  | .bool _ => true
  | _ => false

/-- `matches!(x, TypedData::Bool(true))` as a Bool. -/
def TypedData.isTrue : TypedData → Bool
  | .bool true => true
  | _ => false

/-- The `chunks_exact(2).map(|x| (x[1] as u8) + ((x[0] as u8) << 4))`
packing of the bulk bit-write arm: two bits per byte, first bit in the
high nibble; a trailing unpaired element is dropped. -/
def packBits : List Bool → List Nat
  | a :: b :: rest => (b.toNat + (a.toNat <<< 4)) :: packBits rest
  | _ => []

/-- `construct_frame` from src/commands/device_access/write/bulk.rs.
The builder emits `command ‖ subcommand ‖ start_device ‖ count ‖ data`
and, in this revision of the sources, does NOT prepend the 15-byte
`generate_header` prefix. -/
def bulk_write_construct_frame (cpu : CPU) (start_device : Device)
    (data : List TypedData) : List Nat :=
  let access_type := if data.all TypedData.isBool then AccessType.Bit else AccessType.Word
  let command := le16 0x1401
  let subcommand := bulkWriteSubcommand cpu access_type
  let start_address := start_device.serialize cpu
  match access_type with
  | .Word =>
    let data_code := (data.map TypedData.to_bytes).flatten
    let word_size := data_code.length / 2
    let device_size_code := le16 word_size
    command ++ subcommand ++ start_address ++ device_size_code ++ data_code
  | .Bit =>
    let byte_size := div_ceil data.length 2
    let bit_array := data.map TypedData.isTrue ++
      List.replicate (byte_size * 2 - data.length) false
    let data_code := packBits bit_array
    let device_size_code := le16 data.length
    command ++ subcommand ++ start_address ++ device_size_code ++ data_code

/-- The per-device serialisation of `construct_frame` in
src/commands/device_access/read/random.rs: a `MultiWord(n)` device is
expanded into `n` single-word access points at incrementing addresses. -/
def randomReadDeviceBytes (cpu : CPU) (td : TypedDevice) : List Nat :=
  match td.data_type.device_size with
  | .multiWord n =>
    ((List.range n).map (fun i =>
      Device.serialize { device_type := td.device.device_type,
                         address := td.device.address + i } cpu)).flatten
  | _ => td.device.serialize cpu

/-- `construct_frame` from src/commands/device_access/read/random.rs:
`command ‖ subcommand ‖ n_sw ‖ n_dw ‖ devices` with multi-word expansion
(this builder, too, emits no header in this revision). -/
def random_read_construct_frame (cpu : CPU) (ml : MonitorList) : List Nat :=
  le16 0x0403 ++ wordSubcommand cpu ++
  [ml.single_word_access_points, ml.double_word_access_points] ++
  (ml.sorted_devices.map (fun d => randomReadDeviceBytes cpu d.2)).flatten

/-- `construct_frame` from src/commands/device_access/read/monitor.rs
(monitor register).  This builder DOES prepend `generate_header`, with
`command_len` computed from the EXPANDED access-point total, but it
serialises every sorted device exactly once, without multi-word
expansion. -/
def monitor_register_construct_frame (p : SLMP4EConnectionProps)
    (ml : MonitorList) : List Nat :=
  let command := le16 0x0801
  let subcommand := wordSubcommand p.cpu
  let device_addr_bytelen := Device.addr_code_len p.cpu
  let total_access_points :=
    (ml.single_word_access_points + ml.double_word_access_points) % 256
  let data_packet_len := 2 + total_access_points * device_addr_bytelen
  let data_packet :=
    [ml.single_word_access_points, ml.double_word_access_points] ++
    (ml.sorted_devices.map (fun d => d.2.device.serialize p.cpu)).flatten
  let command_len := (6 + data_packet_len) % 65536
  p.generate_header command_len ++ command ++ subcommand ++ data_packet

/-- `impl From<DeviceSize> for u16` from src/device.rs (the word width of
one access point; the impl predates the `MultiWord` class, which we map to
its word count). -/
def deviceSizeToU16 : DeviceSize → Nat
  | .bit => 1
  | .singleWord => 1
  | .doubleWord => 2
  | .quadrupleWord => 4
  | .multiWord n => n

/-- `construct_frame` from src/commands/device_access/read/bulk.rs: this
builder DOES prepend `generate_header` with
`command_len = COMMAND_PREFIX_BYTELEN + data_packet_bytelen`. -/
def bulk_read_construct_frame (p : SLMP4EConnectionProps)
    (start_device : Device) (device_num : Nat) (data_type : DataType) :
    List Nat :=
  let access_type := match data_type with
    | .bool => AccessType.Bit
    | _ => AccessType.Word
  let command := le16 0x0401
  let subcommand := bulkWriteSubcommand p.cpu access_type
  let start_address := start_device.serialize p.cpu
  let device_size_code :=
    le16 (device_num % 65536 * deviceSizeToU16 data_type.device_size % 65536)
  let data_packet := start_address ++ device_size_code
  let command_len := (6 + data_packet.length) % 65536
  p.generate_header command_len ++ command ++ subcommand ++ data_packet

/-! ## Multi-rate poller (src/manager.rs) -/

def MINUMUM_POLLING_PERIOD_MS : Nat := 100

def LOOP_PERIOD_MS : Nat := 5000

def LOOP_CNT_INIT : Nat := 0

def LOOP_CNT_MAX : Nat := LOOP_PERIOD_MS / MINUMUM_POLLING_PERIOD_MS - 1

/-- The four interval buckets held by a worker (src/manager.rs,
`MonitorDevices`). -/
structure MonitorDevices where
  fast : List TypedDevice
  medium : List TypedDevice
  slow : List TypedDevice
  watch : List TypedDevice
deriving DecidableEq

/-- The request composed by one tick of the poller task in
`SLMPConnectionManager::connect` (src/manager.rs): Fast always, Medium on
`cnt % 5 == 0`, Slow on `cnt % 10 == 0`, Watch on `cnt == LOOP_CNT_MAX`. -/
def compose_request (t : MonitorDevices) (cnt : Nat) : List TypedDevice :=
  t.fast ++
  (if cnt % 5 = 0 then t.medium else []) ++
  (if cnt % 10 = 0 then t.slow else []) ++
  (if cnt = LOOP_CNT_MAX then t.watch else [])

/-- One poller tick: the issued request (`none` when the composed request
is empty — then no `random_read` happens and the callback is not invoked)
and the updated counter (`1` after `LOOP_CNT_MAX`, else `cnt + 1`). -/
def poller_tick (t : MonitorDevices) (cnt : Nat) :
    Option (List TypedDevice) × Nat :=
  (if (compose_request t cnt).length ≠ 0 then some (compose_request t cnt) else none,
   if cnt = LOOP_CNT_MAX then 1 else cnt + 1)

/-! ## Shared example values -/

/-- A concrete connection configuration used by the concrete theorems. -/
def propsExample : SLMP4EConnectionProps :=
  { cpu := .Q, serial_id := 1, network_id := 2, pc_id := 3,
    io_id := 4, area_id := 5, cpu_timer := 6 }

/-- The single-device list `[F64 @ D0]` used to probe multi-word handling. -/
def f64List : List TypedDevice :=
  [{ device := { device_type := .D, address := 0 }, data_type := .f64 }]

/-- 193 single-word devices: one more than the 192 access-point limit the
specification postulates. -/
def overLimitList : List TypedDevice :=
  List.replicate 193 { device := { device_type := .D, address := 0 },
                       data_type := DataType.u16 }

/-! ## Theorems -/

/-- C10: response validation is NOT total: a 13-byte buffer whose DataLen
field matches its length passes the `len ≥ 13` and DataLen checks and then
reads the EndCode bytes at indices 13 and 14, which do not exist; the same
happens at index 14 for a matching 14-byte buffer.  `none` is the
out-of-bounds panic of `data[13]`/`data[14]` in the source. -/
theorem c10_validate_response_panics_on_short_buffers :
    validate_response propsExample (List.replicate 13 0) = none ∧
    validate_response propsExample [0, 0, 0, 0, 0, 0, 0, 0, 0, 0, 0, 1, 0, 0] = none := by
  decide

/-- C4: the bulk-write frame builder of this revision
(src/commands/device_access/write/bulk.rs) emits only
`command ‖ subcommand ‖ device ‖ count ‖ data` and never prepends the
13-byte fixed prefix and CpuTimer: for the one-bit write `M0 := true` on a
Q CPU the whole sent frame is 11 bytes, does not start with the request
code `0x54 0x00`, and has no DataLen field at bytes 11..12 at all. -/
theorem c4_built_frame_lacks_header :
    bulk_write_construct_frame .Q { device_type := .M, address := 0 }
        [.bool true] =
      [0x01, 0x14, 0x01, 0x00, 0x00, 0x00, 0x00, 0x90, 0x01, 0x00, 0x10] ∧
    (bulk_write_construct_frame .Q { device_type := .M, address := 0 }
        [.bool true]).length = 11 ∧
    (bulk_write_construct_frame .Q { device_type := .M, address := 0 }
        [.bool true]).take 2 ≠ [0x54, 0x00] ∧
    (bulk_write_construct_frame .Q { device_type := .M, address := 0 }
        [.bool true]).length < 13 := by
  decide

/-- C5: the encode/decode round trip fails for `BitArray16`, because
`bits_to_u16` recombines the two bit-halves with `u16::from_be_bytes`
while `u16_to_bits` splits with `to_le_bytes`: the array with only bit 0
set decodes back with only bit 8 set. -/
theorem c5_bitarray16_roundtrip_fails :
    TypedData.fromBytes (TypedData.bitArray16 (true :: List.replicate 15 false)).to_bytes
        (TypedData.bitArray16 (true :: List.replicate 15 false)).get_type =
      some (.bitArray16 (List.replicate 8 false ++ true :: List.replicate 7 false)) ∧
    TypedData.bitArray16 (List.replicate 8 false ++ true :: List.replicate 7 false) ≠
      TypedData.bitArray16 (true :: List.replicate 15 false) := by
  decide

/-- C2: the random-read builder expands the `MultiWord(4)` device `F64@D0`
into four single-word access points at `D0..D3`, but the monitor-register
builder serialises the device exactly once even though its header still
counts four single-word points (`n_sw = 4`) and its DataLen field (24) is
computed for the expanded body, disagreeing with the actual frame length
(25, so `N − 13 = 12`). -/
theorem c2_monitor_register_does_not_expand :
    (MonitorList.ofDevices f64List).single_word_access_points = 4 ∧
    random_read_construct_frame .Q (MonitorList.ofDevices f64List) =
      [0x03, 0x04, 0x00, 0x00, 4, 0,
       0, 0, 0, 0xa8, 1, 0, 0, 0xa8, 2, 0, 0, 0xa8, 3, 0, 0, 0xa8] ∧
    monitor_register_construct_frame propsExample (MonitorList.ofDevices f64List) =
      [0x54, 0x00, 1, 0, 0, 0, 2, 3, 4, 0, 5, 24, 0, 6, 0,
       0x01, 0x08, 0x00, 0x00, 4, 0, 0, 0, 0, 0xa8] ∧
    (monitor_register_construct_frame propsExample (MonitorList.ofDevices f64List)).length = 25 ∧
    (monitor_register_construct_frame propsExample
        (MonitorList.ofDevices f64List)).getD 11 0 ≠ 25 - 13 := by
  decide

/-- C6 (counterexample): a list of 193 single-word devices exceeds the
192 access-point limit, yet `MonitorList` construction succeeds with
`single_word_access_points = 193` and the random-read frame is built and
carries the over-limit count — no validation error exists anywhere on the
path. -/
theorem c6_counterexample_no_validation_at_193 :
    (MonitorList.ofDevices overLimitList).single_word_access_points = 193 ∧
    (MonitorList.ofDevices overLimitList).double_word_access_points = 0 ∧
    192 < 193 ∧
    (random_read_construct_frame .Q (MonitorList.ofDevices overLimitList)).length = 778 ∧
    (random_read_construct_frame .Q (MonitorList.ofDevices overLimitList)).getD 4 0 = 193 := by
  decide

/-- C9: one tick of the multi-rate poller composes Fast targets always,
Medium exactly under `cnt % 5 == 0`, Slow exactly under `cnt % 10 == 0`,
Watch exactly at `cnt == 49` (with `LOOP_CNT_MAX = 5000/100 − 1 = 49`);
the tick issues the composed request iff it is non-empty (otherwise no
request is sent and the callback is not invoked), and the counter becomes
1 after 49 and `cnt + 1` otherwise. -/
theorem c9_poller_tick_spec (t : MonitorDevices) (cnt : Nat) :
    LOOP_CNT_MAX = 49 ∧
    (∀ d, d ∈ compose_request t cnt ↔
      (d ∈ t.fast ∨ (cnt % 5 = 0 ∧ d ∈ t.medium) ∨
       (cnt % 10 = 0 ∧ d ∈ t.slow) ∨ (cnt = 49 ∧ d ∈ t.watch))) ∧
    ((poller_tick t cnt).1 = none ↔ compose_request t cnt = []) ∧
    ((poller_tick t cnt).1 = some (compose_request t cnt) ∨
      (poller_tick t cnt).1 = none) ∧
    (poller_tick t cnt).2 = (if cnt = 49 then 1 else cnt + 1) := by
  refine ⟨rfl, ?_, ?_, ?_, ?_⟩
  · intro d
    by_cases h5 : cnt % 5 = 0 <;> by_cases h10 : cnt % 10 = 0 <;>
      by_cases h49 : cnt = LOOP_CNT_MAX <;>
      simp_all [compose_request, LOOP_CNT_MAX, LOOP_PERIOD_MS,
        MINUMUM_POLLING_PERIOD_MS]
  · unfold poller_tick
    by_cases h : (compose_request t cnt).length ≠ 0
    · simp [h]
      intro hc
      simp [hc] at h
    · simp at h
      simp [h]
  · unfold poller_tick
    by_cases h : (compose_request t cnt).length ≠ 0 <;> simp [h]
  · rfl

/-! ### Bit packing (claim C7) -/

theorem packBits_length : ∀ l : List Bool, (packBits l).length = l.length / 2
  | [] => rfl
  | [_] => by simp [packBits]
  | a :: b :: rest => by
    show (packBits rest).length + 1 = (rest.length + 2) / 2
    rw [packBits_length rest]
    omega

theorem toNat_shift_or (a b : Bool) :
    b.toNat + (a.toNat <<< 4) = (a.toNat <<< 4) ||| b.toNat := by
  cases a <;> cases b <;> decide

theorem packBits_getD : ∀ (l : List Bool) (i : Nat), 2 * i + 1 < l.length →
    (packBits l).getD i 0 =
      ((l.getD (2 * i) false).toNat <<< 4) ||| (l.getD (2 * i + 1) false).toNat
  | [], i, h => by simp at h
  | [_], i, h => by simp at h
  | a :: b :: rest, 0, _ => by
    show b.toNat + (a.toNat <<< 4) = _
    simpa using toNat_shift_or a b
  | a :: b :: rest, i + 1, h => by
    have hlt : 2 * i + 1 < rest.length := by
      simp only [List.length_cons] at h
      omega
    have ha : (a :: b :: rest).getD (2 * (i + 1)) false = rest.getD (2 * i) false := by
      have e : 2 * (i + 1) = 2 * i + 1 + 1 := by omega
      rw [e]
      rfl
    have hb : (a :: b :: rest).getD (2 * (i + 1) + 1) false =
        rest.getD (2 * i + 1) false := by
      have e : 2 * (i + 1) + 1 = 2 * i + 1 + 1 + 1 := by omega
      rw [e]
      rfl
    show (packBits rest).getD i 0 = _
    rw [packBits_getD rest i hlt, ha, hb]

theorem getD_pad_false (bs : List Bool) (m j : Nat) :
    (bs ++ List.replicate m false).getD j false = bs.getD j false := by
  rcases Nat.lt_or_ge j bs.length with h | h
  · exact List.getD_append bs _ false j h
  · rw [List.getD_append_right bs _ false j h, List.getD_eq_default bs false h]
    rcases Nat.lt_or_ge (j - bs.length) m with h' | h'
    · rw [List.getD_eq_getElem _ _ (by simpa using h'), List.getElem_replicate]
    · exact List.getD_eq_default _ _ (by simpa using h')

theorem isTrue_comp_bool : TypedData.isTrue ∘ TypedData.bool = id := by
  funext b
  cases b <;> rfl

/-- C7: for a bulk bit-write of the booleans `b0 … b(k−1)` the built
command is `command ‖ subcommand ‖ device ‖ count ‖ data` where the data
portion is `⌈k/2⌉` bytes, byte `i` is `(b(2i) << 4) | b(2i+1)` with a
missing trailing bit read as 0, and the two count bytes carry `k`, the
number of bits. -/
theorem c7_bulk_bit_write_packing (cpu : CPU) (dev : Device) (bs : List Bool)
    (h : bs.length < 65536) :
    bulk_write_construct_frame cpu dev (bs.map TypedData.bool) =
      le16 0x1401 ++ bulkWriteSubcommand cpu AccessType.Bit ++ dev.serialize cpu ++
        le16 bs.length ++
        packBits (bs ++ List.replicate (div_ceil bs.length 2 * 2 - bs.length) false) ∧
    (packBits (bs ++ List.replicate (div_ceil bs.length 2 * 2 - bs.length) false)).length =
      div_ceil bs.length 2 ∧
    (∀ i, i < div_ceil bs.length 2 →
      (packBits (bs ++ List.replicate (div_ceil bs.length 2 * 2 - bs.length) false)).getD i 0 =
        ((bs.getD (2 * i) false).toNat <<< 4) ||| (bs.getD (2 * i + 1) false).toNat) ∧
    (le16 bs.length).getD 0 0 + 256 * (le16 bs.length).getD 1 0 = bs.length := by
  have hpadlen : (bs ++ List.replicate (div_ceil bs.length 2 * 2 - bs.length) false).length =
      div_ceil bs.length 2 * 2 := by
    simp [div_ceil]
    omega
  refine ⟨?_, ?_, ?_, ?_⟩
  · unfold bulk_write_construct_frame
    have hall : (bs.map TypedData.bool).all TypedData.isBool = true := by
      rw [List.all_eq_true]
      intro x hx
      obtain ⟨b, _, rfl⟩ := List.mem_map.1 hx
      rfl
    rw [hall]
    show le16 0x1401 ++ bulkWriteSubcommand cpu AccessType.Bit ++ dev.serialize cpu ++
        le16 (bs.map TypedData.bool).length ++
        packBits ((bs.map TypedData.bool).map TypedData.isTrue ++
          List.replicate (div_ceil (bs.map TypedData.bool).length 2 * 2 -
            (bs.map TypedData.bool).length) false) = _
    rw [List.map_map, isTrue_comp_bool, List.map_id, List.length_map]
  · rw [packBits_length, hpadlen]
    omega
  · intro i hi
    rw [packBits_getD _ i (by omega), getD_pad_false, getD_pad_false]
  · show bs.length % 256 + 256 * (bs.length / 256 % 256) = bs.length
    omega

/-- Witness for C7 at the concrete write `[T,F,F,T]`. -/
theorem c7_bulk_bit_write_packing_witness :
    bulk_write_construct_frame .Q { device_type := .M, address := 0 }
        ([true, false, false, true].map TypedData.bool) =
      le16 0x1401 ++ bulkWriteSubcommand .Q AccessType.Bit ++
        Device.serialize { device_type := .M, address := 0 } .Q ++
        le16 ([true, false, false, true] : List Bool).length ++
        packBits ([true, false, false, true] ++
          List.replicate (div_ceil ([true, false, false, true] : List Bool).length 2 * 2 -
            ([true, false, false, true] : List Bool).length) false) :=
  (c7_bulk_bit_write_packing .Q { device_type := .M, address := 0 }
    [true, false, false, true] (by decide)).1

/-- C6 (amended): no client-side validation of the 192-point limit exists:
for EVERY device list the `MonitorList` is built in full (one sorted entry
per input device) and the random-read frame is constructed unconditionally,
embedding whatever (mod-256) access-point counts resulted. -/
theorem c6_amended_no_limit_enforced (cpu : CPU) (l : List TypedDevice) :
    (MonitorList.ofDevices l).sorted_devices.length = l.length ∧
    ∃ devbytes,
      random_read_construct_frame cpu (MonitorList.ofDevices l) =
        le16 0x0403 ++ wordSubcommand cpu ++
          (MonitorList.ofDevices l).single_word_access_points ::
          (MonitorList.ofDevices l).double_word_access_points :: devbytes := by
  constructor
  · show (List.insertionSort dtLe (List.insertionSort addrLe l.enum)).length = l.length
    rw [List.length_insertionSort, List.length_insertionSort, List.enum_length]
  · exact ⟨((MonitorList.ofDevices l).sorted_devices.map
      (fun d => randomReadDeviceBytes cpu d.2)).flatten, by cases cpu <;> rfl⟩

/-! ### PLCString construction (claim C8) -/

/-- C8 (counterexample): `From<(&str, u8)>` never fails.  Even when the
encoder flags unrepresentable characters (`had_errors = true`) and the
encoding (3 bytes) exceeds `2·n = 2` bytes, a `PLCString` is produced,
silently truncated to the first two bytes. -/
theorem c8_counterexample_from_is_infallible :
    PLCString.fromEncoded [65, 66, 67] true 1 =
      some { data := [65, 66] ++ List.replicate 62 0,
             effective_len := 2, device_size := 1 } ∧
    2 * 1 < ([65, 66, 67] : List Nat).length := by
  decide

/-- C8 (amended): for any encoder output and any requested word size
`n ≤ 32`, `From<(&str, u8)>` always produces a `PLCString` — the
`had_errors` flag is ignored and over-long encodings are truncated — whose
wire bytes are the (possibly truncated) encoding NUL-padded to exactly
`2·n` bytes; the EncodingError and Validation failures the specification
describes exist only on the JSON `Deserialize` path. -/
theorem c8_amended_fromEncoded_total (bytes : List Nat) (had_errors : Bool)
    (n : Nat) (hn : n ≤ 32) :
    (∃ s, PLCString.fromEncoded bytes had_errors n = some s ∧
      s.as_bytes.length = 2 * n ∧
      s.as_bytes = bytes.take (min (nulPos bytes) (n * 2)) ++
        List.replicate (n * 2 - min (nulPos bytes) (n * 2)) 0) ∧
    (had_errors = true → 1 ≤ n →
      PLCString.deserialize_checked n bytes had_errors =
        .error "Contains characters not representable in Shift-JIS") ∧
    (1 ≤ n → n * 2 < bytes.length →
      PLCString.deserialize_checked n bytes false =
        .error "Device size is too small to store Shift-JIS string") := by
  have hfind : nulPos bytes ≤ bytes.length := List.findIdx_le_length _
  have heff2 : min (nulPos bytes) (n * 2) ≤ n * 2 := Nat.min_le_right _ _
  have heff64 : min (nulPos bytes) (n * 2) ≤ PLCSTRING_MAX_BYTES := by
    unfold PLCSTRING_MAX_BYTES
    omega
  have hds : min n PLCSTRING_MAX_DEVICE_SIZE = n := by
    unfold PLCSTRING_MAX_DEVICE_SIZE PLCSTRING_MAX_BYTES
    omega
  refine ⟨?_, ?_, ?_⟩
  · refine ⟨PLCString.mk
      (bytes.take (min (nulPos bytes) (n * 2)) ++
        List.replicate (PLCSTRING_MAX_BYTES - min (nulPos bytes) (n * 2)) 0)
      (min (nulPos bytes) (n * 2))
      (min n PLCSTRING_MAX_DEVICE_SIZE), ?_, ?_, ?_⟩
    · show PLCString.from_shift_jis_bytes bytes n = some _
      unfold PLCString.from_shift_jis_bytes
      rw [if_pos heff64]
    · show (PLCString.as_bytes _).length = 2 * n
      unfold PLCString.as_bytes
      simp only [hds, List.length_take, List.length_append, List.length_replicate]
      have : (bytes.take (min (nulPos bytes) (n * 2))).length =
          min (nulPos bytes) (n * 2) := by
        rw [List.length_take]
        omega
      unfold PLCSTRING_MAX_BYTES at *
      omega
    · show PLCString.as_bytes _ = _
      unfold PLCString.as_bytes
      simp only [hds]
      have hlt : (bytes.take (min (nulPos bytes) (n * 2))).length =
          min (nulPos bytes) (n * 2) := by
        rw [List.length_take]
        omega
      rw [List.take_append_eq_append_take, List.take_take, hlt, List.take_replicate]
      have e1 : min (n * 2) (min (nulPos bytes) (n * 2)) =
          min (nulPos bytes) (n * 2) := by omega
      have e2 : min (n * 2 - min (nulPos bytes) (n * 2))
          (PLCSTRING_MAX_BYTES - min (nulPos bytes) (n * 2)) =
          n * 2 - min (nulPos bytes) (n * 2) := by
        unfold PLCSTRING_MAX_BYTES
        omega
      rw [e1, e2]
  · intro he h1
    unfold PLCString.deserialize_checked
    rw [if_neg (by unfold PLCSTRING_MAX_DEVICE_SIZE PLCSTRING_MAX_BYTES; omega), he]
    rfl
  · intro h1 hlen
    unfold PLCString.deserialize_checked
    rw [if_neg (by unfold PLCSTRING_MAX_DEVICE_SIZE PLCSTRING_MAX_BYTES; omega)]
    show (if false = true then _ else if n * 2 < bytes.length then _ else _) = _
    rw [if_neg (by simp), if_pos hlen]

/-- Witness for the amended C8 at the one-byte encoding `[65]`, n = 1. -/
theorem c8_amended_fromEncoded_total_witness :
    ∃ s, PLCString.fromEncoded [65] false 1 = some s ∧
      s.as_bytes.length = 2 * 1 ∧
      s.as_bytes = [65].take (min (nulPos [65]) (1 * 2)) ++
        List.replicate (1 * 2 - min (nulPos [65]) (1 * 2)) 0 :=
  (c8_amended_fromEncoded_total [65] false 1 (by decide)).1

/-! ### Response validation (claims C1, C10) -/

theorem getElem?_eq_some_getD (l : List Nat) (i : Nat) (h : i < l.length) :
    l[i]? = some (l.getD i 0) := by
  rw [List.getElem?_eq_getElem h, List.getD_eq_getElem l 0 h]

theorem getD_eq_of_take_eq (d1 d2 : List Nat) (i : Nat) (hi : i < 15)
    (hpre : d1.take 15 = d2.take 15) : d1.getD i 0 = d2.getD i 0 := by
  have e1 : d1[i]? = d2[i]? := by
    rw [← List.getElem?_take_of_lt (l := d1) hi, ← List.getElem?_take_of_lt (l := d2) hi,
      hpre]
  rw [List.getD_eq_getD_get?, List.getD_eq_getD_get?]
  simpa using congrArg (fun o => o.getD 0) e1

theorem getElem?_eq_of_take_eq (d1 d2 : List Nat) (i : Nat) (hi : i < 15)
    (hpre : d1.take 15 = d2.take 15) : d1[i]? = d2[i]? := by
  rw [← List.getElem?_take_of_lt (l := d1) hi, ← List.getElem?_take_of_lt (l := d2) hi,
    hpre]

theorem slice_eq_of_take_eq (d1 d2 : List Nat) (a b : Nat) (hab : a + b ≤ 15)
    (hpre : d1.take 15 = d2.take 15) : (d1.drop a).take b = (d2.drop a).take b := by
  have e1 : (d1.drop a).take b = ((d1.take 15).drop a).take b := by
    rw [List.drop_take, List.take_take]
    congr 1
    omega
  have e2 : (d2.drop a).take b = ((d2.take 15).drop a).take b := by
    rw [List.drop_take, List.take_take]
    congr 1
    omega
  rw [e1, e2, hpre]

/-- The tail checks succeed exactly when the EndCode is zero and every
header field matches the configuration. -/
theorem validate_end_eq_ok_iff (p : SLMP4EConnectionProps) (data : List Nat)
    (code : Nat) :
    validate_end p data code = .ok () ↔
      (code = 0 ∧
       data.take 2 = [0xD4, 0x00] ∧
       (data.drop 2).take 2 = le16 p.serial_id ∧
       (data.drop 4).take 2 = [0x00, 0x00] ∧
       data.getD 6 0 = p.network_id ∧
       data.getD 7 0 = p.pc_id ∧
       (data.drop 8).take 2 = le16 p.io_id ∧
       data.getD 10 0 = p.area_id) := by
  unfold validate_end
  constructor
  · intro h
    split_ifs at h with hc hresp hserial hblank hnet hpc hio harea
    all_goals try simp at h
    exact ⟨not_not.mp hc, not_not.mp hresp, not_not.mp hserial, not_not.mp hblank,
      not_not.mp hnet, not_not.mp hpc, not_not.mp hio, not_not.mp harea⟩
  · rintro ⟨hc, hresp, hserial, hblank, hnet, hpc, hio, harea⟩
    rw [if_neg (not_not.mpr hc), if_neg (not_not.mpr hresp),
      if_neg (not_not.mpr hserial), if_neg (not_not.mpr hblank),
      if_neg (not_not.mpr hnet), if_neg (not_not.mpr hpc),
      if_neg (not_not.mpr hio), if_neg (not_not.mpr harea)]

/-- `validate_end` inspects only the first fifteen bytes of the buffer. -/
theorem validate_end_depends_on_prefix (p : SLMP4EConnectionProps)
    (d1 d2 : List Nat) (code : Nat) (hpre : d1.take 15 = d2.take 15) :
    validate_end p d1 code = validate_end p d2 code := by
  have htake2 : d1.take 2 = d2.take 2 := by
    have e1 : d1.take 2 = (d1.take 15).take 2 := by
      rw [List.take_take]
      norm_num
    have e2 : d2.take 2 = (d2.take 15).take 2 := by
      rw [List.take_take]
      norm_num
    rw [e1, e2, hpre]
  unfold validate_end
  rw [htake2,
    getD_eq_of_take_eq d1 d2 6 (by omega) hpre,
    getD_eq_of_take_eq d1 d2 7 (by omega) hpre,
    getD_eq_of_take_eq d1 d2 10 (by omega) hpre,
    slice_eq_of_take_eq d1 d2 2 2 (by omega) hpre,
    slice_eq_of_take_eq d1 d2 4 2 (by omega) hpre,
    slice_eq_of_take_eq d1 d2 8 2 (by omega) hpre]

/-- `validate_response` inspects only the buffer length and its first
fifteen bytes. -/
theorem validate_response_depends_on_prefix (p : SLMP4EConnectionProps)
    (d1 d2 : List Nat) (hlen : d1.length = d2.length)
    (hpre : d1.take 15 = d2.take 15) :
    validate_response p d1 = validate_response p d2 := by
  unfold validate_response
  rw [hlen,
    getD_eq_of_take_eq d1 d2 11 (by omega) hpre,
    getD_eq_of_take_eq d1 d2 12 (by omega) hpre,
    getElem?_eq_of_take_eq d1 d2 13 (by omega) hpre,
    getElem?_eq_of_take_eq d1 d2 14 (by omega) hpre]
  simp only [fun code => validate_end_depends_on_prefix p d1 d2 code hpre]

/-- C1: validation succeeds iff the buffer is ≥ 13 bytes, DataLen at
bytes 11..12 equals length − 13, the EndCode at bytes 13..14 exists (so
the buffer reaches 15 bytes) and is zero, bytes 0..1 are `0xD4 0x00` and
bytes 2..10 are the configured SerialID, blank bytes, NetworkID, PcID,
IoID and AreaID.  After the length and DataLen checks a non-zero EndCode
fails with a protocol error carrying the code's name; no byte past the
EndCode influences validation; and on success the payload handed to the
caller is the suffix starting at byte 15. -/
theorem c1_validate_response_spec (p : SLMP4EConnectionProps) (data : List Nat) :
    (validate_response p data = some (.ok ()) ↔
      (13 ≤ data.length ∧
       data.getD 11 0 + 256 * data.getD 12 0 = data.length - 13 ∧
       15 ≤ data.length ∧
       data.getD 13 0 + 256 * data.getD 14 0 = 0 ∧
       data.take 2 = [0xD4, 0x00] ∧
       (data.drop 2).take 2 = le16 p.serial_id ∧
       (data.drop 4).take 2 = [0x00, 0x00] ∧
       data.getD 6 0 = p.network_id ∧
       data.getD 7 0 = p.pc_id ∧
       (data.drop 8).take 2 = le16 p.io_id ∧
       data.getD 10 0 = p.area_id)) ∧
    (∀ code, 13 ≤ data.length →
       data.getD 11 0 + 256 * data.getD 12 0 = data.length - 13 →
       15 ≤ data.length →
       data.getD 13 0 + 256 * data.getD 14 0 = code → code ≠ 0 →
       validate_response p data = some (.error (.protocol (endCodeName code) code))) ∧
    (∀ data2, data2.length = data.length → data2.take 15 = data.take 15 →
       validate_response p data2 = validate_response p data) ∧
    (∀ body, response_body p data = some (.ok body) → body = data.drop 15) := by
  refine ⟨?_, ?_, ?_, ?_⟩
  · by_cases h1 : data.length < 13
    · rw [validate_response, if_pos h1]
      constructor
      · intro h
        simp at h
      · rintro ⟨h, -⟩
        omega
    · by_cases h2 : data.getD 11 0 + 256 * data.getD 12 0 ≠ data.length - 13
      · rw [validate_response, if_neg h1, if_pos h2]
        constructor
        · intro h
          simp at h
        · rintro ⟨-, hdl, -⟩
          exact absurd hdl h2
      · by_cases h3 : 15 ≤ data.length
        · have h13 := getElem?_eq_some_getD data 13 (by omega)
          have h14 := getElem?_eq_some_getD data 14 (by omega)
          rw [validate_response, if_neg h1, if_neg h2, h13, h14]
          show some (validate_end p data (data.getD 13 0 + 256 * data.getD 14 0)) =
              some (.ok ()) ↔ _
          rw [Option.some_inj, validate_end_eq_ok_iff]
          push_neg at h2
          constructor
          · rintro ⟨hcode, hrest⟩
            exact ⟨by omega, h2, h3, hcode, hrest⟩
          · rintro ⟨-, -, -, hcode, hrest⟩
            exact ⟨hcode, hrest⟩
        · rcases (by omega : data.length = 13 ∨ data.length = 14) with hc | hc
          · have h13 : data[13]? = none := List.getElem?_eq_none (by omega)
            rw [validate_response, if_neg h1, if_neg h2, h13]
            show (none : Option (Except SLMPError Unit)) = some (.ok ()) ↔ _
            constructor
            · intro h
              simp at h
            · rintro ⟨-, -, hge, -⟩
              omega
          · have h13 := getElem?_eq_some_getD data 13 (by omega)
            have h14 : data[14]? = none := List.getElem?_eq_none (by omega)
            rw [validate_response, if_neg h1, if_neg h2, h13, h14]
            show (none : Option (Except SLMPError Unit)) = some (.ok ()) ↔ _
            constructor
            · intro h
              simp at h
            · rintro ⟨-, -, hge, -⟩
              omega
  · intro code hge13 hdl hge15 hcode hne
    have h13 := getElem?_eq_some_getD data 13 (by omega)
    have h14 := getElem?_eq_some_getD data 14 (by omega)
    rw [validate_response, if_neg (by omega), if_neg (not_not.mpr hdl), h13, h14]
    show some (validate_end p data (data.getD 13 0 + 256 * data.getD 14 0)) = _
    rw [hcode, validate_end, if_pos hne]
  · intro data2 hlen hpre
    exact validate_response_depends_on_prefix p data2 data hlen hpre
  · intro body h
    unfold response_body at h
    rcases hv : validate_response p data with - | val
    · rw [hv] at h
      simp at h
    · rcases val with e | u
      · rw [hv] at h
        simp at h
      · cases u
        rw [hv] at h
        simpa using h.symm

/-- Witness for C1: a concrete well-formed 15-byte response for the
example configuration validates successfully. -/
theorem c1_validate_response_spec_witness :
    validate_response propsExample
      [0xD4, 0x00, 1, 0, 0, 0, 2, 3, 4, 0, 5, 2, 0, 0, 0] = some (.ok ()) :=
  ((c1_validate_response_spec propsExample
    [0xD4, 0x00, 1, 0, 0, 0, 2, 3, 4, 0, 5, 2, 0, 0, 0]).1).mpr (by decide)

/-! ### MonitorList ordering and counters (claim C3) -/

theorem orderedInsert_sortedOrder (x : Nat × TypedDevice) :
    ∀ l : List (Nat × TypedDevice), l.Sorted dtLe → l.Pairwise sortedOrder →
      (∀ y ∈ l, addrLe x y) →
      (l.orderedInsert dtLe x).Pairwise sortedOrder
  | [], _, _, _ => by simp
  | y :: ys, hs, hp, hx => by
    by_cases hle : dtLe x y
    · rw [List.orderedInsert_of_le _ _ hle]
      refine List.Pairwise.cons ?_ hp
      intro z hz
      have hxz : dtLe x z := by
        rcases List.mem_cons.mp hz with rfl | hz'
        · exact hle
        · exact IsTrans.trans x y z hle (List.rel_of_sorted_cons hs z hz')
      have haddr : addrLe x z := hx z hz
      unfold dtLe keyLe DataType.dtKey at hxz
      unfold addrLe at haddr
      unfold sortedOrder
      omega
    · rw [List.orderedInsert, if_neg hle]
      refine List.Pairwise.cons ?_
        (orderedInsert_sortedOrder x ys hs.of_cons hp.of_cons
          (fun z hz => hx z (List.mem_cons_of_mem y hz)))
      intro z hz
      rcases (List.mem_orderedInsert dtLe).mp hz with rfl | hz'
      · unfold dtLe keyLe DataType.dtKey at hle
        unfold sortedOrder
        omega
      · exact List.rel_of_pairwise_cons hp hz'

theorem insertionSort_sortedOrder :
    ∀ l : List (Nat × TypedDevice), l.Pairwise addrLe →
      (List.insertionSort dtLe l).Pairwise sortedOrder
  | [], _ => by simp
  | x :: xs, hp => by
    show (List.orderedInsert dtLe x (List.insertionSort dtLe xs)).Pairwise sortedOrder
    refine orderedInsert_sortedOrder x _ (List.sorted_insertionSort dtLe xs)
      (insertionSort_sortedOrder xs hp.of_cons) ?_
    intro y hy
    exact List.rel_of_pairwise_cons hp ((List.mem_insertionSort dtLe).mp hy)

theorem foldl_mod_add {α : Type} (g : α → Nat) :
    ∀ (l : List α) (a : Nat),
      l.foldl (fun acc b => (acc + g b) % 256) (a % 256) = (a + (l.map g).sum) % 256
  | [], a => by simp
  | b :: l, a => by
    show List.foldl _ ((a % 256 + g b) % 256) l = _
    have e : (a % 256 + g b) % 256 = (a + g b) % 256 := by omega
    rw [e, foldl_mod_add g l (a + g b)]
    simp only [List.map_cons, List.sum_cons]
    omega

theorem enumFrom_countP (p : TypedDevice → Bool) :
    ∀ (n : Nat) (l : List TypedDevice),
      (List.enumFrom n l).countP (fun x => p x.2) = l.countP p
  | _, [] => rfl
  | n, d :: l => by
    simp [List.enumFrom, List.countP_cons, enumFrom_countP p (n + 1) l]

theorem enumFrom_filter_map (g : TypedDevice → Nat) (p : TypedDevice → Bool) :
    ∀ (n : Nat) (l : List TypedDevice),
      ((List.enumFrom n l).filter (fun x => p x.2)).map (fun x => g x.2) =
        (l.filter p).map g
  | _, [] => rfl
  | n, d :: l => by
    by_cases hp : p d <;>
      simp [List.enumFrom, List.filter_cons, hp, enumFrom_filter_map g p (n + 1) l]

/-- The sorted device list is a permutation of the enumerated input. -/
theorem ofDevices_perm_enum (l : List TypedDevice) :
    (MonitorList.ofDevices l).sorted_devices.Perm l.enum := by
  show (List.insertionSort dtLe (List.insertionSort addrLe l.enum)).Perm l.enum
  exact (List.perm_insertionSort dtLe _).trans (List.perm_insertionSort addrLe _)

/-- C3 (amended): `MonitorList::from` sorts the enumerated input primarily
by the FULL derived `DataType` order — which compares the `String`
device-size payload before the address — and secondarily by address, each
entry keeping its original index (the result is a permutation of the
enumeration); the three cached counters equal the specified counts reduced
modulo 256, because they are computed in `u8` arithmetic. -/
theorem c3_amended_monitor_list_invariants (l : List TypedDevice) :
    (MonitorList.ofDevices l).sorted_devices.Pairwise sortedOrder ∧
    (MonitorList.ofDevices l).sorted_devices.Perm l.enum ∧
    (MonitorList.ofDevices l).single_word_access_points =
      (l.countP (fun d => isSingleOrBit d.data_type) + multiSum l) % 256 ∧
    (MonitorList.ofDevices l).double_word_access_points =
      (l.countP (fun d => isDoubleWord d.data_type)) % 256 ∧
    (MonitorList.ofDevices l).multi_word_access_points =
      (l.countP (fun d => isMultiWord d.data_type)) % 256 := by
  have hperm := ofDevices_perm_enum l
  have hcount : ∀ p : TypedDevice → Bool,
      (MonitorList.ofDevices l).sorted_devices.countP (fun x => p x.2) =
        l.countP p := by
    intro p
    rw [hperm.countP_eq]
    exact enumFrom_countP p 0 l
  refine ⟨?_, hperm, ?_, ?_, ?_⟩
  · show (List.insertionSort dtLe (List.insertionSort addrLe l.enum)).Pairwise sortedOrder
    exact insertionSort_sortedOrder _ (List.sorted_insertionSort addrLe l.enum)
  · show ((MonitorList.ofDevices l).sorted_devices.countP
        (fun x => isSingleOrBit x.2.data_type) % 256 +
      ((MonitorList.ofDevices l).sorted_devices.filter
        (fun x => isMultiWord x.2.data_type)).foldl
          (fun a b => (a + multiWordSize b.2.data_type) % 256) 0) % 256 = _
    have hsum : (((MonitorList.ofDevices l).sorted_devices.filter
        (fun x => isMultiWord x.2.data_type)).map
          (fun b => multiWordSize b.2.data_type)).sum = multiSum l := by
      have hpf := hperm.filter (fun x => isMultiWord x.2.data_type)
      have hs2 := (hpf.map (fun b => multiWordSize b.2.data_type)).sum_eq
      rw [hs2]
      show ((l.enum.filter (fun x => isMultiWord x.2.data_type)).map
        (fun x => multiWordSize x.2.data_type)).sum = multiSum l
      rw [show (l.enum.filter (fun x => isMultiWord x.2.data_type)).map
            (fun x => multiWordSize x.2.data_type) =
          (l.filter (fun d => isMultiWord d.data_type)).map
            (fun d => multiWordSize d.data_type) from
        enumFrom_filter_map (fun d => multiWordSize d.data_type)
          (fun d => isMultiWord d.data_type) 0 l]
      rfl
    have hfold : ((MonitorList.ofDevices l).sorted_devices.filter
        (fun x => isMultiWord x.2.data_type)).foldl
          (fun a b => (a + multiWordSize b.2.data_type) % 256) 0 =
        multiSum l % 256 := by
      have h0 : (0 : Nat) = 0 % 256 := rfl
      rw [h0, foldl_mod_add (fun b : Nat × TypedDevice => multiWordSize b.2.data_type),
        hsum]
      simp
    rw [hfold, hcount (fun d => isSingleOrBit d.data_type)]
    omega
  · show (MonitorList.ofDevices l).sorted_devices.countP
        (fun x => isDoubleWord x.2.data_type) % 256 = _
    rw [hcount (fun d => isDoubleWord d.data_type)]
  · show ((MonitorList.ofDevices l).sorted_devices.filter
        (fun x => isMultiWord x.2.data_type)).length % 256 = _
    rw [← List.countP_eq_length_filter, hcount (fun d => isMultiWord d.data_type)]

/-! ### Supporting theorems (not tied to a single claim) -/

/-- The encode/decode round trip DOES hold for booleans and for every
numeric width, for in-range bit patterns — `BitArray16` (see the C5
counterexample) is the odd one out. -/
theorem typed_data_roundtrip_numeric :
    (∀ b : Bool, TypedData.fromBytes (TypedData.bool b).to_bytes .bool =
      some (.bool b)) ∧
    (∀ v : Nat, v < 65536 →
      TypedData.fromBytes (TypedData.u16 v).to_bytes .u16 = some (.u16 v)) ∧
    (∀ v : Nat, v < 65536 →
      TypedData.fromBytes (TypedData.i16 v).to_bytes .i16 = some (.i16 v)) ∧
    (∀ v : Nat, v < 4294967296 →
      TypedData.fromBytes (TypedData.u32 v).to_bytes .u32 = some (.u32 v)) ∧
    (∀ v : Nat, v < 4294967296 →
      TypedData.fromBytes (TypedData.i32 v).to_bytes .i32 = some (.i32 v)) ∧
    (∀ v : Nat, v < 4294967296 →
      TypedData.fromBytes (TypedData.f32 v).to_bytes .f32 = some (.f32 v)) ∧
    (∀ v : Nat, v < 18446744073709551616 →
      TypedData.fromBytes (TypedData.f64 v).to_bytes .f64 = some (.f64 v)) := by
  refine ⟨?_, ?_, ?_, ?_, ?_, ?_, ?_⟩
  · intro b
    cases b <;> rfl
  all_goals intro v hv
  all_goals simp [TypedData.fromBytes, TypedData.to_bytes, le16, le32, le64,
    read16, read32, read64]
  all_goals omega

/-- The header-attaching bulk-read builder satisfies the DataLen protocol
invariant: the little-endian `u16` at bytes 11..12 of the built frame
equals the frame length minus 13. -/
theorem bulk_read_frame_datalen (p : SLMP4EConnectionProps)
    (start_device : Device) (device_num : Nat) (data_type : DataType) :
    (bulk_read_construct_frame p start_device device_num data_type).getD 11 0 +
      256 * (bulk_read_construct_frame p start_device device_num data_type).getD 12 0 =
    (bulk_read_construct_frame p start_device device_num data_type).length - 13 := by
  unfold bulk_read_construct_frame SLMP4EConnectionProps.generate_header
  cases p.cpu <;> cases data_type <;>
    simp [Device.serialize, le16, bulkWriteSubcommand, List.getD]

/-- C3 (counterexample): with two `String` devices of different sizes the
implemented order compares the `String` size before the address: the input
`[String(4)@D3, String(2)@D5]` is sorted to `[String(2)@D5, String(4)@D3]`,
which is NOT ordered primarily by DataType ordinal and secondarily by
address (both ordinals are 6 but the addresses are out of order). -/
theorem c3_counterexample_string_sizes_break_claimed_order :
    (MonitorList.ofDevices
        [⟨⟨.D, 3⟩, .string 4⟩, ⟨⟨.D, 5⟩, .string 2⟩]).sorted_devices =
      [(1, ⟨⟨.D, 5⟩, .string 2⟩), (0, ⟨⟨.D, 3⟩, .string 4⟩)] ∧
    ¬ (MonitorList.ofDevices
        [⟨⟨.D, 3⟩, .string 4⟩, ⟨⟨.D, 5⟩, .string 2⟩]).sorted_devices.Pairwise
          claimOrder := by
  decide

end Slmp
